import Mathlib

/-!
Verification development for the eslint-check action (src/index.js).

The program is a single linear pipeline: create a check run, query the
pull request for changed files, filter them by extension, run ESLint,
normalize the diagnostics into a check-run report, and complete the
check run. We embed the pure logic (the extension filter, the Node
path.extname, the eslint normalizer) as executable Lean functions, and
the effectful run() workflow as a function from an environment of
external-call outcomes to a trace of observable events and an exit code.
-/

namespace EslintCheck

/-! Node path.extname (posix), modelled from the Node implementation.

The state record mirrors the local variables of the Node extname loop,
which scans the string from the end. We iterate over the reversed
character list, tracking the descending index. -/

structure ExtScan where
  startDot : Int
  startPart : Nat
  endIdx : Int
  matchedSlash : Bool
  preDotState : Int
deriving Repr, DecidableEq

def extScanStep (c : Char) (i : Nat) (s : ExtScan) : ExtScan :=
  let s := if s.endIdx = -1 then { s with matchedSlash := false, endIdx := (i : Int) + 1 } else s
  if c = '.' then
    if s.startDot = -1 then { s with startDot := (i : Int) }
    else if s.preDotState ≠ 1 then { s with preDotState := 1 } else s
  else if s.startDot ≠ -1 then { s with preDotState := -1 } else s

def extScanLoop : List Char → Nat → ExtScan → ExtScan
  | [], _, s => s
  | c :: rest, i, s =>
    if c = '/' then
      if ¬ s.matchedSlash then { s with startPart := i + 1 }
      else extScanLoop rest (i - 1) s
    else
      extScanLoop rest (i - 1) (extScanStep c i s)

def extname (path : String) : String :=
  let cs := path.toList
  let s := extScanLoop cs.reverse (cs.length - 1)
    { startDot := -1, startPart := 0, endIdx := -1, matchedSlash := true, preDotState := 0 }
  if s.startDot = -1 ∨ s.endIdx = -1 ∨ s.preDotState = 0 ∨
      (s.preDotState = 1 ∧ s.startDot = s.endIdx - 1 ∧ s.startDot = (s.startPart : Int) + 1) then
    ""
  else
    String.mk ((cs.take s.endIdx.toNat).drop s.startDot.toNat)

/-! The lint target filter (run(), lines 184-193) -/

structure PRFile where
  path : String
deriving Repr, DecidableEq

def EXTENSIONS_TO_LINT : List String := [".mjs", ".js", ".ts", ".jsx", ".tsx"]

def filesToLint (files : List PRFile) : List String :=
  (files.filter (fun file => EXTENSIONS_TO_LINT.contains (extname file.path))).map
    (fun file => file.path)

/-! The eslint normalizer (function eslint, lines 68-115).

JS string.substring(n) drops the first n UTF-16 units (clamped); codes
are ASCII here so characters coincide with units. The JS array read
levels[severity] yields undefined out of range, modelled by Option via
get?; severity 0 yields the empty string. A null ruleId rendered by a
template literal prints the text "null". -/

def jsSubstringFrom (s : String) (start : Nat) : String :=
  String.mk (s.toList.drop start)

def jsRender : Option String → String
  | some s => s
  | none => "null"

structure LintMessage where
  line : Nat
  severity : Nat
  ruleId : Option String
  message : String
deriving Repr, DecidableEq

structure LintResult where
  filePath : String
  messages : List LintMessage
deriving Repr, DecidableEq

structure CLIReport where
  results : List LintResult
  errorCount : Nat
  warningCount : Nat
deriving Repr, DecidableEq

structure Annot where
  path : String
  start_line : Nat
  end_line : Nat
  annotation_level : Option String
  message : String
deriving Repr, DecidableEq

structure Output where
  title : String
  summary : String
  annotations : List Annot
deriving Repr, DecidableEq

structure EslintResult where
  conclusion : String
  output : Output
deriving Repr, DecidableEq

def checkName : String := "ESLint check"

def levels : List String := ["", "warning", "failure"]

def eslintAnnotationsOf (GITHUB_WORKSPACE : String) (results : List LintResult) :
    List Annot :=
  results.flatMap (fun result =>
    let path := jsSubstringFrom result.filePath (GITHUB_WORKSPACE.length + 1)
    result.messages.map (fun msg =>
      { path := path
        start_line := msg.line
        end_line := msg.line
        annotation_level := levels.get? msg.severity
        message := "[" ++ jsRender msg.ruleId ++ "] " ++ msg.message }))

def eslint (GITHUB_WORKSPACE : String) (report : CLIReport) : EslintResult :=
  { conclusion := if report.errorCount > 0 then "failure" else "success"
    output :=
      { title := checkName
        summary := toString report.errorCount ++ " error(s), " ++
          toString report.warningCount ++ " warning(s) found"
        annotations := eslintAnnotationsOf GITHUB_WORKSPACE report.results } }

/-! The run() workflow (lines 142-221).

External collaborators (the check-run REST endpoint, the GraphQL query,
the ESLint engine) are modelled by an environment giving the outcome of
each call: Except.error stands for a rejected promise / thrown error.
runModel returns the trace of observable events in order, and the
process exit code (process.exit(78) on a failure conclusion,
exitWithError gives 1, normal completion gives 0).

Error plumbing from the source: createCheck is awaited outside the try
block, so its failure reaches run().catch(exitWithError) with no
check-run update. Inside try, any failure reaches the catch block,
which awaits updateCheck(id, failure) and then calls exitWithError;
if that updateCheck itself rejects, the rejection propagates to
run().catch(exitWithError), so the process exits 1 either way — the
completing update in the catch is best-effort and the event is emitted
as an attempt whose outcome cannot change the exit code. -/

structure PRInfo where
  oid : String
  files : List PRFile
deriving Repr, DecidableEq

inductive Event where
  | createCheckReq (head_sha : String)
  | updateCheckReq (id : Nat) (head_sha : String) (conclusion : String) (hasOutput : Bool)
  | logSha (sha : String)
  | logNothingToLint
  | lintInvoked (files : List String)
deriving Repr, DecidableEq

structure Env where
  GITHUB_SHA : String
  GITHUB_WORKSPACE : String
  createCheckResult : Except Unit Nat
  prQueryResult : Except Unit PRInfo
  engineResult : List String → Except Unit CLIReport
  updateResult : String → Bool → Except Unit Unit

structure RunOutcome where
  events : List Event
  exitCode : Nat
deriving Repr, DecidableEq

def runModel (env : Env) : RunOutcome :=
  match env.createCheckResult with
  | .error _ => ⟨[.createCheckReq env.GITHUB_SHA], 1⟩
  | .ok id =>
    match env.prQueryResult with
    | .error _ =>
      ⟨[.createCheckReq env.GITHUB_SHA,
        .updateCheckReq id env.GITHUB_SHA "failure" false], 1⟩
    | .ok prInfo =>
      let targets := filesToLint prInfo.files
      if targets.length < 1 then
        ⟨[.createCheckReq env.GITHUB_SHA, .logSha prInfo.oid, .logNothingToLint], 0⟩
      else
        match env.engineResult targets with
        | .error _ =>
          ⟨[.createCheckReq env.GITHUB_SHA, .logSha prInfo.oid, .lintInvoked targets,
            .updateCheckReq id env.GITHUB_SHA "failure" false], 1⟩
        | .ok report =>
          let r := eslint env.GITHUB_WORKSPACE report
          match env.updateResult r.conclusion true with
          | .error _ =>
            ⟨[.createCheckReq env.GITHUB_SHA, .logSha prInfo.oid, .lintInvoked targets,
              .updateCheckReq id env.GITHUB_SHA r.conclusion true,
              .updateCheckReq id env.GITHUB_SHA "failure" false], 1⟩
          | .ok _ =>
            ⟨[.createCheckReq env.GITHUB_SHA, .logSha prInfo.oid, .lintInvoked targets,
              .updateCheckReq id env.GITHUB_SHA r.conclusion true],
              if r.conclusion = "failure" then 78 else 0⟩

/-! Helper functions and concrete fixtures used by the theorems -/

def headShaOfReq : Event → Option String
  | .createCheckReq s => some s
  | .updateCheckReq _ s _ _ => some s
  | _ => none

def maskOid : Event → Event
  | .logSha _ => .logSha ""
  | e => e

def withOid (env : Env) (o : String) : Env :=
  { env with prQueryResult := env.prQueryResult.map (fun p => { p with oid := o }) }

def sev0Report : CLIReport :=
  { results := [{ filePath := "/ws/a.js"
                  messages := [{ line := 3, severity := 0, ruleId := some "no-x",
                                 message := "info msg" }] }]
    errorCount := 0
    warningCount := 0 }

def oneMsg : LintMessage :=
  { line := 1, severity := 2, ruleId := some "r", message := "m" }

def env4 : Env :=
  { GITHUB_SHA := "envsha"
    GITHUB_WORKSPACE := "/ws"
    createCheckResult := .ok 7
    prQueryResult := .error ()
    engineResult := fun _ => .error ()
    updateResult := fun _ _ => .ok () }

def env6 : Env :=
  { GITHUB_SHA := "envsha"
    GITHUB_WORKSPACE := "/ws"
    createCheckResult := .ok 7
    prQueryResult := .ok { oid := "gqlsha", files := [⟨"README.md"⟩] }
    engineResult := fun _ => .error ()
    updateResult := fun _ _ => .ok () }

def report8 : CLIReport :=
  { results := [{ filePath := "/ws/a.js", messages := [oneMsg] }]
    errorCount := 1
    warningCount := 0 }

def env8 : Env :=
  { GITHUB_SHA := "envsha"
    GITHUB_WORKSPACE := "/ws"
    createCheckResult := .ok 7
    prQueryResult := .ok { oid := "gqlsha", files := [⟨"a.js"⟩] }
    engineResult := fun _ => .ok report8
    updateResult := fun _ _ => .ok () }

theorem filesToLint_eq_filter (files : List PRFile) :
    filesToLint files =
      (files.map (fun file => file.path)).filter
        (fun p => EXTENSIONS_TO_LINT.contains (extname p)) := by
  induction files with
  | nil => rfl
  | cons f fs ih =>
    by_cases h : EXTENSIONS_TO_LINT.contains (extname f.path) = true
    · simp only [filesToLint, List.filter_cons, List.map_cons, h, if_true, List.map] at ih ⊢
      exact congrArg (f.path :: ·) ih
    · simp only [filesToLint, List.filter_cons, List.map_cons, h, if_false, Bool.false_eq_true,
        List.map] at ih ⊢
      exact ih

/-! Claims -/

/-- Sanity check: the extname model agrees with the Node path.extname
on representative inputs, and the filter reproduces the end-to-end
scenario from the spec (files a.js, b.py, c.ts give a.js, c.ts). -/
theorem extname_samples :
    extname "a.js" = ".js" ∧ extname ".js" = "" ∧ extname "src/.js" = "" ∧
    extname "a/b.tsx" = ".tsx" ∧ extname "README.md" = ".md" ∧
    extname "noext" = "" ∧ extname "index." = "." ∧ extname ".." = "" ∧
    filesToLint [⟨"a.js"⟩, ⟨"b.py"⟩, ⟨"c.ts"⟩] = ["a.js", "c.ts"] := by
  decide

/-- Claim C1: the report's conclusion is "failure" if and only if the
aggregate errorCount is greater than 0, for any combination of
errorCount and warningCount; warnings alone never yield a failure
conclusion. -/
theorem C1_conclusion_iff_errors (GITHUB_WORKSPACE : String) (report : CLIReport) :
    (eslint GITHUB_WORKSPACE report).conclusion = "failure" ↔ 0 < report.errorCount := by
  by_cases h : 0 < report.errorCount <;> simp [eslint, h]

/-- Claim C2, evaluated at the failing input: a severity-0 (Info)
diagnostic DOES produce an annotation, and its level is the blank
string (levels[0] = ""), contrary to the claim that Info diagnostics
are never surfaced. Severities 1 and 2 map to "warning" and "failure"
as claimed. -/
theorem C2_severity0_blank_level :
    (eslint "/ws" sev0Report).output.annotations =
      [{ path := "a.js", start_line := 3, end_line := 3,
         annotation_level := some "", message := "[no-x] info msg" }] ∧
    levels.get? 1 = some "warning" ∧ levels.get? 2 = some "failure" := by
  exact ⟨rfl, rfl, rfl⟩

/-- Claim C3, evaluated at the failing input: rebasing drops
GITHUB_WORKSPACE.length + 1 characters unconditionally. A filePath
under the workspace root "/ws" rebases correctly to "a/b.js", but a
filePath "/other/a.js" NOT under the root silently yields the
malformed path "er/a.js" — no PreconditionError is raised anywhere. -/
theorem C3_rebase_unguarded :
    (eslintAnnotationsOf "/ws"
      [{ filePath := "/ws/a/b.js", messages := [oneMsg] }]).map (fun a => a.path) =
      ["a/b.js"] ∧
    (eslintAnnotationsOf "/ws"
      [{ filePath := "/other/a.js", messages := [oneMsg] }]).map (fun a => a.path) =
      ["er/a.js"] := by
  exact ⟨rfl, rfl⟩

/-- Claim C4, counterexample: when the pull-request query fails, the
check run has ALREADY been created (createCheck is awaited before the
query), and the catch block updates it; so "no check run has been
created or updated" is false, though the exit code is 1. -/
theorem C4_counterexample :
    (runModel env4).exitCode = 1 ∧
    Event.createCheckReq "envsha" ∈ (runModel env4).events ∧
    Event.updateCheckReq 7 "envsha" "failure" false ∈ (runModel env4).events := by
  refine ⟨rfl, ?_, ?_⟩ <;> simp [runModel, env4]

/-- Claim C4 (amended): if the pull-request query fails, the failure
occurs AFTER the check run is opened: the trace is exactly the
check-run creation followed by a completing update with conclusion
"failure", and the process exits with code 1. -/
theorem C4_amended_query_failure (env : Env) (id : Nat)
    (hc : env.createCheckResult = .ok id)
    (hq : env.prQueryResult = .error ()) :
    runModel env =
      ⟨[.createCheckReq env.GITHUB_SHA, .updateCheckReq id env.GITHUB_SHA "failure" false],
        1⟩ := by
  simp [runModel, hc, hq]

/-- Witness for the amended C4 at a concrete environment. -/
theorem C4_amended_witness :
    env4.createCheckResult = .ok 7 ∧ env4.prQueryResult = .error () ∧
    runModel env4 =
      ⟨[.createCheckReq "envsha", .updateCheckReq 7 "envsha" "failure" false], 1⟩ :=
  ⟨rfl, rfl, C4_amended_query_failure env4 7 rfl rfl⟩

/-- Claim C5: the lint target filter preserves the relative order of
the input (its output is a sublist of the input paths) and contains
exactly those paths whose extension belongs to the fixed set
of lintable extensions. -/
theorem C5_filter_order_and_membership (files : List PRFile) :
    List.Sublist (filesToLint files) (files.map (fun file => file.path)) ∧
    ∀ p : String, p ∈ filesToLint files ↔
      p ∈ files.map (fun file => file.path) ∧ extname p ∈ EXTENSIONS_TO_LINT := by
  rw [filesToLint_eq_filter]
  constructor
  · exact List.filter_sublist _
  · intro p
    simp [List.mem_filter]

/-- Claim C6: when the filtered lint-target list is empty, no lint
invocation happens, no completing check-run update is issued, the
"nothing to lint" notice is logged, and the process exits with code 0. -/
theorem C6_empty_targets_noop (env : Env) (id : Nat) (prInfo : PRInfo)
    (hc : env.createCheckResult = .ok id)
    (hq : env.prQueryResult = .ok prInfo)
    (hf : filesToLint prInfo.files = []) :
    (runModel env).exitCode = 0 ∧
    Event.logNothingToLint ∈ (runModel env).events ∧
    (∀ fs, Event.lintInvoked fs ∉ (runModel env).events) ∧
    (∀ i s c b, Event.updateCheckReq i s c b ∉ (runModel env).events) := by
  have h : runModel env =
      ⟨[.createCheckReq env.GITHUB_SHA, .logSha prInfo.oid, .logNothingToLint], 0⟩ := by
    simp [runModel, hc, hq, hf]
  rw [h]
  simp

/-- Witness for C6 at a concrete environment whose change set is one
markdown file. -/
theorem C6_witness :
    env6.createCheckResult = .ok 7 ∧
    env6.prQueryResult = .ok { oid := "gqlsha", files := [⟨"README.md"⟩] } ∧
    filesToLint [(⟨"README.md"⟩ : PRFile)] = [] ∧
    ((runModel env6).exitCode = 0 ∧
     Event.logNothingToLint ∈ (runModel env6).events ∧
     (∀ fs, Event.lintInvoked fs ∉ (runModel env6).events) ∧
     (∀ i s c b, Event.updateCheckReq i s c b ∉ (runModel env6).events)) :=
  ⟨rfl, rfl, by decide, C6_empty_targets_noop env6 7 _ rfl rfl (by decide)⟩

/-- Claim C7: every error raised after the check run has been opened
(pull-request query failure, engine crash, or a failure of the
completing update itself) leads to a best-effort completing update of
that same check run with conclusion "failure" and no output, and the
process exits with code 1. -/
theorem C7_error_after_open (env : Env) (id : Nat)
    (hc : env.createCheckResult = .ok id)
    (herr : env.prQueryResult = .error () ∨
      ∃ prInfo, env.prQueryResult = .ok prInfo ∧ filesToLint prInfo.files ≠ [] ∧
        (env.engineResult (filesToLint prInfo.files) = .error () ∨
         ∃ report, env.engineResult (filesToLint prInfo.files) = .ok report ∧
           env.updateResult (eslint env.GITHUB_WORKSPACE report).conclusion true =
             .error ())) :
    Event.updateCheckReq id env.GITHUB_SHA "failure" false ∈ (runModel env).events ∧
    (runModel env).exitCode = 1 := by
  rcases herr with hq | ⟨prInfo, hq, hne, herr⟩
  · simp [runModel, hc, hq]
  · have hlen : ¬ (filesToLint prInfo.files).length < 1 := by
      simp [Nat.lt_one_iff, List.length_eq_zero, hne]
    rcases herr with he | ⟨report, he, hu⟩
    · simp [runModel, hc, hq, hlen, he]
    · simp [runModel, hc, hq, hlen, he, hu]

/-- Witness for C7 at a concrete environment whose pull-request query
fails after the check run was opened. -/
theorem C7_witness :
    Event.updateCheckReq 7 "envsha" "failure" false ∈ (runModel env4).events ∧
    (runModel env4).exitCode = 1 :=
  C7_error_after_open env4 7 rfl (Or.inl rfl)

/-- Claim C8: after a successful completing update, the process exits
with code 78 when the lint conclusion is "failure" and with code 0
when it is "success". -/
theorem C8_exit_codes (env : Env) (id : Nat) (prInfo : PRInfo) (report : CLIReport)
    (hc : env.createCheckResult = .ok id)
    (hq : env.prQueryResult = .ok prInfo)
    (hne : filesToLint prInfo.files ≠ [])
    (he : env.engineResult (filesToLint prInfo.files) = .ok report)
    (hu : env.updateResult (eslint env.GITHUB_WORKSPACE report).conclusion true = .ok ()) :
    ((eslint env.GITHUB_WORKSPACE report).conclusion = "failure" →
      (runModel env).exitCode = 78) ∧
    ((eslint env.GITHUB_WORKSPACE report).conclusion = "success" →
      (runModel env).exitCode = 0) := by
  have hlen : ¬ (filesToLint prInfo.files).length < 1 := by
    simp [Nat.lt_one_iff, List.length_eq_zero, hne]
  constructor
  · intro hconc
    rw [hconc] at hu
    simp [runModel, hc, hq, hlen, he, hu, hconc]
  · intro hconc
    rw [hconc] at hu
    simp [runModel, hc, hq, hlen, he, hu, hconc]

/-- Witness for C8 at a concrete environment where the engine reports
one error, so the conclusion is "failure" and the exit code is 78. -/
theorem C8_witness :
    ((eslint "/ws" report8).conclusion = "failure" → (runModel env8).exitCode = 78) ∧
    ((eslint "/ws" report8).conclusion = "success" → (runModel env8).exitCode = 0) :=
  C8_exit_codes env8 7 { oid := "gqlsha", files := [⟨"a.js"⟩] } report8
    rfl rfl (by decide) rfl rfl

/-- Claim C9: every check-run request (creating or completing) carries
the environment-provided GITHUB_SHA as head commit, and the oid
returned by the pull-request query influences nothing but the log
line: changing it leaves the exit code and all non-log events
unchanged. -/
theorem C9_head_sha_from_env (env : Env) (o : String) :
    ((runModel env).events.filterMap headShaOfReq).all
      (fun s => s == env.GITHUB_SHA) = true ∧
    (runModel (withOid env o)).events.map maskOid = (runModel env).events.map maskOid ∧
    (runModel (withOid env o)).exitCode = (runModel env).exitCode := by
  rcases env with ⟨sha, ws, cr, pq, er, ur⟩
  cases cr with
  | error e =>
    simp [runModel, withOid, headShaOfReq, maskOid]
  | ok id =>
    cases pq with
    | error e =>
      simp [runModel, withOid, Except.map, headShaOfReq, maskOid]
    | ok prInfo =>
      by_cases hlen : (filesToLint prInfo.files).length < 1
      · simp [runModel, withOid, Except.map, hlen, headShaOfReq, maskOid]
      · cases he : er (filesToLint prInfo.files) with
        | error e =>
          simp [runModel, withOid, Except.map, hlen, he, headShaOfReq, maskOid]
        | ok report =>
          cases hu : ur (eslint ws report).conclusion true with
          | error e =>
            simp [runModel, withOid, Except.map, hlen, he, hu, headShaOfReq, maskOid]
          | ok u =>
            simp [runModel, withOid, Except.map, hlen, he, hu, headShaOfReq, maskOid]

/-- Claim C10: a changed file whose basename is a bare dot-prefixed
token equal to a lintable extension (such as a file named exactly
".js", at the top level or in a directory) is not selected by the
filter, because the Node extname of such a dotfile is the empty string,
which is not in the lintable set. -/
theorem C10_bare_extension_dotfile_skipped :
    ∀ e ∈ EXTENSIONS_TO_LINT,
      extname e = "" ∧ filesToLint [⟨e⟩, ⟨"src/" ++ e⟩] = [] := by
  decide

/-- Witness for C10 at the concrete dotfile name ".js". -/
theorem C10_witness :
    ".js" ∈ EXTENSIONS_TO_LINT ∧
    (extname ".js" = "" ∧ filesToLint [⟨".js"⟩, ⟨"src/" ++ ".js"⟩] = []) :=
  ⟨by decide, C10_bare_extension_dotfile_skipped ".js" (by decide)⟩

end EslintCheck
